import Mathlib

/-!
Verification of the receipt-scanning pipeline in `src/App.tsx`
(Remittance-Schedule-Tool).

The file is a shallow embedding of the data model and the operations of the
pipeline: the per-document processing loop `processReceipts`, the field
normalization performed after `callScannerGeminiAPI` returns, and the two
spreadsheet exporters inside `downloadScannerExcel`.  JavaScript strings are
modelled by `String`, JS numbers occurring as currency amounts by `Int`
(with an explicit decimal rendering `intRepr` modelling template-literal
stringification), arrays by `List`, the insertion-ordered `Set` and plain
objects by lists, and the stable `Array.prototype.sort` by
`List.insertionSort` (any stable sort produces the same list).  Dates are
handled in UTC: `new Date("YYYY-MM-DD")` is modelled by parsing the three
dash-separated numeric fields.
-/

namespace Remit

/-! ### Models of JavaScript string primitives -/

/-- JS `String.prototype.trim`: drop whitespace from both ends. -/
def jsTrim (s : String) : String :=
  ⟨((s.data.dropWhile Char.isWhitespace).reverse.dropWhile Char.isWhitespace).reverse⟩

/-- ASCII uppercase of one character (model of `toUpperCase` per char). -/
def upChar (c : Char) : Char :=
  if 'a' ≤ c && c ≤ 'z' then Char.ofNat (c.toNat - 32) else c

/-- ASCII lowercase of one character (model of `toLowerCase` per char). -/
def lowChar (c : Char) : Char :=
  if 'A' ≤ c && c ≤ 'Z' then Char.ofNat (c.toNat + 32) else c

/-- JS `String.prototype.toUpperCase` (ASCII fragment). -/
def jsUpper (s : String) : String := ⟨s.data.map upChar⟩

/-- JS `String.prototype.toLowerCase` (ASCII fragment). -/
def jsLower (s : String) : String := ⟨s.data.map lowChar⟩

/-- Does the character list `l` start with `pat`? -/
def startsWithChars : List Char → List Char → Bool
  | _, [] => true
  | [], _ :: _ => false
  | a :: l, b :: p => a == b && startsWithChars l p

/-- Does `pat` occur as a contiguous run inside `l`? -/
def containsChars : List Char → List Char → Bool
  | [], pat => pat.isEmpty
  | a :: t, pat => startsWithChars (a :: t) pat || containsChars t pat

/-- JS `String.prototype.includes`. -/
def strContains (s pat : String) : Bool := containsChars s.data pat.data

/-- JS `str.split(c)` for a single-character separator, on character lists. -/
def splitOnCharList (c : Char) (l : List Char) : List (List Char) :=
  l.foldr
    (fun x acc =>
      match acc with
      | h :: t => if x = c then [] :: h :: t else (x :: h) :: t
      | [] => [[x]])
    [[]]

/-- JS `str.split("-")`. -/
def jsSplitDash (s : String) : List String :=
  (splitOnCharList '-' s.data).map (fun l => ⟨l⟩)

/-- Digit character for a value below ten (used by the decimal renderer). -/
def digitChar (d : Nat) : Char :=
  if d = 0 then '0' else if d = 1 then '1' else if d = 2 then '2'
  else if d = 3 then '3' else if d = 4 then '4' else if d = 5 then '5'
  else if d = 6 then '6' else if d = 7 then '7' else if d = 8 then '8'
  else if d = 9 then '9' else '*'

/-- Decimal digit characters of `n`, most significant first; `fuel` bounds the
recursion and any `fuel ≥ n` is enough. -/
def natDigitsAux : Nat → Nat → List Char
  | 0, _ => []
  | _ + 1, 0 => []
  | fuel + 1, n => natDigitsAux fuel (n / 10) ++ [digitChar (n % 10)]

/-- Decimal rendering of a natural number (model of JS number-to-string for
non-negative integral values). -/
def natRepr (n : Nat) : String :=
  if n = 0 then "0" else ⟨natDigitsAux n n⟩

/-- Decimal rendering of an integer (model of JS template-literal
stringification of an integral `number`). -/
def intRepr (i : Int) : String :=
  if i < 0 then "-" ++ natRepr i.natAbs else natRepr i.natAbs

/-- Decode a digit character (inverse of `digitChar` below ten). -/
def charVal (c : Char) : Nat := c.toNat - 48

/-- Decode a list of decimal digit characters. -/
def decodeDigits (l : List Char) : Nat :=
  l.foldl (fun a c => a * 10 + charVal c) 0

/-! ### The extracted record -/

/-- The `ScannerResult` interface of `App.tsx`.  `amount` is the extracted
currency figure, modelled as an integer. -/
structure ScannerResult where
  companyName : String
  paymentDate : String
  paymentDateDisplay : String
  paymentPeriod : String
  receiptNumber : String
  taxType : String
  amount : Int
deriving DecidableEq, Repr

/-! ### Date helpers (UTC model of the `Date` arithmetic used by the app) -/

/-- Character digits to a number, `none` when empty or not all digits. -/
def charsToNat (l : List Char) : Option Nat :=
  if l ≠ [] && l.all Char.isDigit then
    some (l.foldl (fun a c => a * 10 + charVal c) 0)
  else none

/-- Parse `"YYYY-MM-DD"` into `(year, month, day)`; malformed input yields
`(0, 0, 0)`. -/
def parseDateISO (s : String) : Nat × Nat × Nat :=
  match (splitOnCharList '-' s.data).map charsToNat with
  | [some y, some m, some d] => (y, m, d)
  | _ => (0, 0, 0)

/-- Linearization of a parsed date; models the monotone `getTime()` key used
by every sort comparator in the app. -/
def dateKey (s : String) : Nat :=
  let p := parseDateISO s
  p.1 * 10000 + p.2.1 * 100 + p.2.2

/-- Gregorian leap-year test. -/
def isLeap (y : Nat) : Bool :=
  y % 4 = 0 && (y % 100 ≠ 0 || y % 400 = 0)

/-- Days in month `m` (1..12) of year `y`. -/
def daysInMonth (y m : Nat) : Nat :=
  if m = 2 then (if isLeap y then 29 else 28)
  else if m = 4 || m = 6 || m = 9 || m = 11 then 30
  else 31

/-- Model of `date.setMonth(date.getMonth() - 1)` on a date `(y, m, d)` with
`m` in 1..12: move to the previous calendar month, and when the day of month
exceeds that month's length JS rolls the excess days into the following
month. -/
def prevMonthDate (y m d : Nat) : Nat × Nat × Nat :=
  let ym := if m = 1 then (y - 1, 12) else (y, m - 1)
  if d ≤ daysInMonth ym.1 ym.2 then (ym.1, ym.2, d)
  else (ym.1, ym.2 + 1, d - daysInMonth ym.1 ym.2)

/-- Three-letter English month abbreviation, as produced by
`toLocaleString(default, month short)` in an English locale. -/
def monthShortName (m : Nat) : String :=
  if m = 1 then "Jan" else if m = 2 then "Feb" else if m = 3 then "Mar"
  else if m = 4 then "Apr" else if m = 5 then "May" else if m = 6 then "Jun"
  else if m = 7 then "Jul" else if m = 8 then "Aug" else if m = 9 then "Sep"
  else if m = 10 then "Oct" else if m = 11 then "Nov" else if m = 12 then "Dec"
  else ""

/-- Full English month name, as produced by
`toLocaleString(default, month long)` in an English locale. -/
def monthLongName (m : Nat) : String :=
  if m = 1 then "January" else if m = 2 then "February"
  else if m = 3 then "March" else if m = 4 then "April"
  else if m = 5 then "May" else if m = 6 then "June"
  else if m = 7 then "July" else if m = 8 then "August"
  else if m = 9 then "September" else if m = 10 then "October"
  else if m = 11 then "November" else if m = 12 then "December"
  else ""

/-- Model of `getFullYear().toString().slice(-2)`. -/
def twoDigitYear (y : Nat) : String :=
  let s := natRepr y
  s.drop (s.length - 2)

/-- Model of `String(n).padStart(2, "0")`. -/
def pad2 (n : Nat) : String :=
  let s := natRepr n
  if s.length = 1 then "0" ++ s else s

/-! ### Field normalization (tail of `callScannerGeminiAPI`) -/

/-- The parsed JSON object returned by the extraction service, before the
app's own normalization.  An absent `paymentPeriod` is modelled by `""`
(both the empty string and `undefined` are falsy in the JS guard). -/
structure RawScan where
  companyName : String
  paymentDate : String
  paymentPeriod : String
  receiptNumber : String
  taxType : String
  amount : Int
deriving DecidableEq, Repr

/-- Period inferred from `paymentDate`: take the date, apply
`setMonth(getMonth() - 1)`, and format as short month, dash, 2-digit year. -/
def inferredPeriod (paymentDate : String) : String :=
  let p := parseDateISO paymentDate
  let q := prevMonthDate p.1 p.2.1 p.2.2
  monthShortName q.2.1 ++ "-" ++ twoDigitYear q.1

/-- The `DD/MM/YYYY` display string derived from `paymentDate`. -/
def displayDateOf (paymentDate : String) : String :=
  let p := parseDateISO paymentDate
  pad2 p.2.2 ++ "/" ++ pad2 p.2.1 ++ "/" ++ natRepr p.1

/-- The two normalization steps performed on the parsed service response at
the end of `callScannerGeminiAPI`. -/
def normalizeScanData (d : RawScan) : ScannerResult :=
  let period :=
    if d.paymentPeriod = "" ∧ d.paymentDate ≠ "" then inferredPeriod d.paymentDate
    else d.paymentPeriod
  let display := if d.paymentDate ≠ "" then displayDateOf d.paymentDate else ""
  { companyName := d.companyName, paymentDate := d.paymentDate,
    paymentDateDisplay := display, paymentPeriod := period,
    receiptNumber := d.receiptNumber, taxType := d.taxType, amount := d.amount }

/-! ### The batch processing loop (`processReceipts`) -/

/-- One input document: its metadata and the outcome the extraction call
would produce for it (`none` models a thrown error, a transport failure or
an unparseable response). -/
structure InputDocument where
  name : String
  size : Nat
  mime : String
  extraction : Option ScannerResult
deriving Repr

/-- Tag of a diagnostic message. -/
inductive MsgType where
  | error
  | success
  | warning
deriving DecidableEq, Repr

/-- One diagnostic message shown to the user. -/
structure Message where
  text : String
  type : MsgType
deriving DecidableEq, Repr

/-- The 19 MB size ceiling. -/
def maxFileSize : Nat := 19 * 1024 * 1024

/-- Media types the scanner accepts. -/
def acceptedMimes : List String :=
  ["image/png", "image/jpeg", "image/webp", "application/pdf"]

/-- The deduplication key: trimmed receipt number, a dash, and the
stringified amount. -/
def uniqueKeyOf (r : ScannerResult) : String :=
  jsTrim r.receiptNumber ++ "-" ++ intRepr r.amount

/-- Mutable state of the processing loop: the `uniqueKeys` set (insertion
order kept), the accepted `results`, and the accumulated messages. -/
structure ScanState where
  uniqueKeys : List String
  results : List ScannerResult
  messages : List Message
deriving Repr

/-- The body of the `for (const file of selectedFiles)` loop. -/
def processOne (st : ScanState) (file : InputDocument) : ScanState :=
  if maxFileSize < file.size then
    { st with messages := st.messages ++
        [⟨"File skipped (too large): " ++ file.name, .warning⟩] }
  else if !(acceptedMimes.contains file.mime) then
    { st with messages := st.messages ++
        [⟨"Skipped: " ++ file.name ++ ". Scanner accepts PNG, JPG, WebP, or PDF.", .warning⟩] }
  else
    match file.extraction with
    | some result =>
      if result.companyName ≠ "" then
        if uniqueKeyOf result ∈ st.uniqueKeys then
          { st with messages := st.messages ++
              [⟨"Duplicate Receipt skipped: " ++ result.receiptNumber ++ " in " ++ file.name, .warning⟩] }
        else
          { uniqueKeys := st.uniqueKeys ++ [uniqueKeyOf result],
            results := st.results ++ [result],
            messages := st.messages ++
              [⟨"Successfully processed: " ++ file.name, .success⟩] }
      else
        { st with messages := st.messages ++
            [⟨"Failed to process file: " ++ file.name ++ ". AI did not return valid data.", .error⟩] }
    | none =>
      { st with messages := st.messages ++
          [⟨"Failed to process file: " ++ file.name ++ ".", .error⟩] }

/-- Ascending-payment-date comparison used by every sort in the app. -/
def dateLe (a b : ScannerResult) : Prop :=
  dateKey a.paymentDate ≤ dateKey b.paymentDate

instance : DecidableRel dateLe := fun a b => Nat.decLe (dateKey a.paymentDate) (dateKey b.paymentDate)

/-- The final `results.sort(...)` of the batch: a stable ascending sort by
payment date. -/
def sortLedger (l : List ScannerResult) : List ScannerResult :=
  l.insertionSort dateLe

/-- The whole batch run: fold the loop body over the documents in input
order, then sort the accepted results. -/
def processReceipts (files : List InputDocument) : List ScannerResult × List Message :=
  let st := files.foldl processOne ⟨[], [], []⟩
  (sortLedger st.results, st.messages)

/-! ### Spreadsheet artifacts -/

/-- A cell value of the produced sheets (styling is ignored: it never
changes a value). -/
inductive CellValue where
  | str (s : String)
  | num (i : Int)
  | date (d : Nat × Nat × Nat)
  | empty
deriving DecidableEq, Repr

/-- One worksheet: its tab name and its grid of cell values. -/
structure Sheet where
  name : String
  rows : List (List CellValue)
deriving DecidableEq, Repr

/-- A workbook is a list of sheets. -/
structure Workbook where
  sheets : List Sheet
deriving DecidableEq, Repr

/-- The written file: its name and the workbook content. -/
structure ExportArtifact where
  filename : String
  workbook : Workbook
deriving DecidableEq, Repr

/-- The two template modes of `downloadScannerExcel`. -/
inductive TemplateType where
  | upload
  | standard
deriving DecidableEq, Repr

/-! ### Upload-template exporter -/

/-- Display override of the raw tax type applied in the upload template. -/
def displayTaxTypeOf (t : String) : String :=
  let upperTax := jsUpper t
  if strContains upperTax "LAGOS REVENUE PAYMENT" || upperTax == "REVENUE PAYMENT"
      || upperTax == "REVENUE RECEIPT" then "PAYE"
  else t

/-- The month-abbreviation table of the upload exporter (capitalized and
lowercase keys, exactly as in the source). -/
def monthAbbrevMap : String → Option String
  | "Jan" => some "JANUARY" | "Feb" => some "FEBRUARY" | "Mar" => some "MARCH"
  | "Apr" => some "APRIL" | "May" => some "MAY" | "Jun" => some "JUNE"
  | "Jul" => some "JULY" | "Aug" => some "AUGUST" | "Sep" => some "SEPTEMBER"
  | "Oct" => some "OCTOBER" | "Nov" => some "NOVEMBER" | "Dec" => some "DECEMBER"
  | "jan" => some "JANUARY" | "feb" => some "FEBRUARY" | "mar" => some "MARCH"
  | "apr" => some "APRIL" | "may" => some "MAY" | "jun" => some "JUNE"
  | "jul" => some "JULY" | "aug" => some "AUGUST" | "sep" => some "SEPTEMBER"
  | "oct" => some "OCTOBER" | "nov" => some "NOVEMBER" | "dec" => some "DECEMBER"
  | _ => none

/-- Whether the displayed tax type is in the PAYE family. -/
def isPayeOf (row : ScannerResult) : Bool :=
  strContains (jsUpper (displayTaxTypeOf row.taxType)) "PAYE"

/-- The PERIOD OF PAYMENT value of one upload row. -/
def periodValOf (row : ScannerResult) : String :=
  match jsSplitDash row.paymentPeriod with
  | [m, yy] =>
    let y := if yy.length = 2 then "20" ++ yy else yy
    if isPayeOf row then
      match monthAbbrevMap m with
      | some v => v
      | none =>
        match monthAbbrevMap (jsLower m) with
        | some v => v
        | none => jsUpper m
    else y
  | _ =>
    let p := parseDateISO row.paymentDate
    if isPayeOf row then jsUpper (monthLongName p.2.1) else natRepr p.1

/-- Header row of the upload sheet. -/
def uploadHeaders : List String :=
  ["REVENUE ITEM", "DATE OF PAYMENT", "AMOUNT PAID", "RECEIPT NUMBER", "PERIOD OF PAYMENT"]

/-- One data row of the upload sheet. -/
def uploadRowOf (row : ScannerResult) : List CellValue :=
  [.str (displayTaxTypeOf row.taxType), .date (parseDateISO row.paymentDate),
   .num row.amount, .str row.receiptNumber, .str (periodValOf row)]

/-- The defensive re-sort `[...scannerResults].sort(...)` of the upload
exporter (same comparison as `sortLedger`, applied to a copy). -/
def uploadSorted (scannerResults : List ScannerResult) : List ScannerResult :=
  scannerResults.insertionSort dateLe

/-- The single sheet of the upload template. -/
def uploadSheet (scannerResults : List ScannerResult) : Sheet :=
  ⟨"Upload", (uploadHeaders.map .str) :: (uploadSorted scannerResults).map uploadRowOf⟩

/-! ### Standard-template exporter -/

/-- Trailing run of ASCII digits of a string. -/
def trailingDigits (s : String) : List Char :=
  (s.data.reverse.takeWhile Char.isDigit).reverse

/-- Year bucket extracted from a period string by the trailing 2-to-4-digit
regex of the source; 2-digit years are prefixed with `20`. -/
def getYearFromPeriod (period : String) : String :=
  if period = "" then "Unknown"
  else
    let run := trailingDigits period
    if 2 ≤ run.length then
      let m := run.drop (run.length - min 4 run.length)
      if m.length = 2 then "20" ++ (⟨m⟩ : String) else ⟨m⟩
    else "Unknown"

/-- Insert a key at the back unless already present (insertion-ordered set
and object-key model). -/
def insertKey (seen : List String) (k : String) : List String :=
  if k ∈ seen then seen else seen ++ [k]

/-- The year keys of `dataByYear`, in first-occurrence order. -/
def yearKeysOf (ledger : List ScannerResult) : List String :=
  ledger.foldl (fun acc r => insertKey acc (getYearFromPeriod r.paymentPeriod)) []

/-- The rows accumulated under one year key. -/
def bucketOf (ledger : List ScannerResult) (y : String) : List ScannerResult :=
  ledger.filter (fun r => getYearFromPeriod r.paymentPeriod == y)

/-- Increment the count of `n` in an insertion-ordered counting map. -/
def bump : List (String × Nat) → String → List (String × Nat)
  | [], n => [(n, 1)]
  | (k, c) :: rest, n => if k = n then (k, c + 1) :: rest else (k, c) :: bump rest n

/-- Lookup in a counting map. -/
def lookupCount : List (String × Nat) → String → Option Nat
  | [], _ => none
  | (k, c) :: rest, n => if k = n then some c else lookupCount rest n

/-- Company name of a row as counted for sheet titles (`row.companyName ||
"Unknown"`). -/
def mappedName (r : ScannerResult) : String :=
  if r.companyName = "" then "Unknown" else r.companyName

/-- The `companyCounts` object of one sheet. -/
def companyCounts (rows : List ScannerResult) : List (String × Nat) :=
  (rows.map mappedName).foldl bump []

/-- One step of the title reduce: keep `a` only when its count is defined
and strictly greater; any comparison against an undefined count is false in
JS, so `b` is kept. -/
def cmpKeep (cnt : String → Option Nat) (a b : String) : String :=
  match cnt a, cnt b with
  | some ca, some cb => if ca > cb then a else b
  | _, _ => b

/-- Title of one year sheet: the reduce over the keys of `companyCounts`
seeded with `"NASD PLC"`. -/
def bucketTitle (rows : List ScannerResult) : String :=
  let counts := companyCounts rows
  ((counts.map Prod.fst).foldl (cmpKeep (lookupCount counts)) "NASD PLC")

/-- Sum of the amounts of a sheet. -/
def sheetTotal (rows : List ScannerResult) : Int :=
  rows.foldl (fun sum r => sum + r.amount) 0

/-- Header row of a standard-template year sheet. -/
def standardHeaders : List String :=
  ["PAYMENT DATE", "PERIOD", "RECEIPT NUMBER", "TAX TYPE", "AMOUNT [N]"]

/-- One data row of a standard-template sheet (an absent payment date
yields an undefined cell). -/
def standardDataRow (r : ScannerResult) : List CellValue :=
  [if r.paymentDate ≠ "" then .date (parseDateISO r.paymentDate) else .empty,
   .str r.paymentPeriod, .str r.receiptNumber, .str r.taxType, .num r.amount]

/-- The full grid of one year sheet: title row, schedule-for row, spacer,
headers, one row per record, spacer, total row. -/
def standardSheetRows (year : String) (sheetData : List ScannerResult) : List (List CellValue) :=
  [[.str (bucketTitle sheetData)],
   [.str ("REMITTANCE SCHEDULE FOR " ++ year)],
   [],
   standardHeaders.map .str]
  ++ sheetData.map standardDataRow
  ++ [[], [.str "", .str "", .str "", .str "Total", .num (sheetTotal sheetData)]]

/-- One year sheet built from the ledger: the bucket is sorted ascending by
payment date before rendering. -/
def standardSheet (ledger : List ScannerResult) (year : String) : Sheet :=
  let sheetData := (bucketOf ledger year).insertionSort dateLe
  ⟨"Remittance " ++ year, standardSheetRows year sheetData⟩

/-- Canonical tax short-code of one raw tax type (priority chain of the
source). -/
def shortCodeOf (t : String) : String :=
  let u := jsUpper t
  if strContains u "WHT" || strContains u "WITHHOLDING" then "WHT"
  else if strContains u "VAT" || strContains u "VALUE ADDED" then "VAT"
  else if strContains u "PAYE" || strContains u "PAY AS YOU EARN" then "PAYE"
  else if strContains u "CIT" || strContains u "COMPANY INCOME" then "CIT"
  else if strContains u "EDT" || strContains u "EDUCATION" then "EDT"
  else "TAX"

/-- The `extractedTaxTypes` set, in insertion order (rows with an empty tax
type are skipped). -/
def extractedTaxTypes (ledger : List ScannerResult) : List String :=
  ledger.foldl (fun acc r => if r.taxType = "" then acc else insertKey acc (shortCodeOf r.taxType)) []

/-- The company names counted by `companyFrequency` (rows with an empty
company name are skipped). -/
def companyNamesOf (ledger : List ScannerResult) : List String :=
  ledger.filterMap (fun r => if r.companyName = "" then none else some r.companyName)

/-- The `companyFrequency` object across the whole ledger. -/
def companyFrequency (ledger : List ScannerResult) : List (String × Nat) :=
  (companyNamesOf ledger).foldl bump []

/-- One step of the dominant-company reduce over defined frequencies. -/
def pickMax (f : String → Nat) (a b : String) : String :=
  if f a > f b then a else b

/-- Dominant company across the batch: the seed-less reduce over the keys
of `companyFrequency`; `"Unknown_Company"` when there are no keys. -/
def dominantCompanyOf (ledger : List ScannerResult) : String :=
  let freq := companyFrequency ledger
  match freq.map Prod.fst with
  | [] => "Unknown_Company"
  | k :: rest => rest.foldl (pickMax (fun n => (lookupCount freq n).getD 0)) k

/-- Whitespace-run collapsing of `replace(whitespace-runs, "_")`; the flag
records whether the previous character was whitespace. -/
def collapseWsAux : Bool → List Char → List Char
  | _, [] => []
  | prevWs, c :: rest =>
    if c.isWhitespace then
      (if prevWs then collapseWsAux true rest else '_' :: collapseWsAux true rest)
    else c :: collapseWsAux false rest

/-- Company-name sanitization of the filename: strip every character that is
not a letter, digit or whitespace, trim, and collapse whitespace runs to
single underscores. -/
def sanitizeCompany (s : String) : String :=
  let kept : String := ⟨s.data.filter (fun c => c.isAlphanum || c.isWhitespace)⟩
  ⟨collapseWsAux false (jsTrim kept).data⟩

/-- Lexicographic comparison of character lists (JS string comparison by
code units). -/
def charsLe : List Char → List Char → Bool
  | [], _ => true
  | _ :: _, [] => false
  | a :: s, b :: t => if a < b then true else if b < a then false else charsLe s t

/-- The default comparator of `Array.prototype.sort` on strings. -/
def strLe (a b : String) : Prop := charsLe a.data b.data = true

instance : DecidableRel strLe := fun a b => instDecidableEqBool (charsLe a.data b.data) true

/-- Sorted, underscore-joined distinct short-codes; `"Remittance"` when the
join is empty. -/
def taxTypesStrOf (ledger : List ScannerResult) : String :=
  let s := String.intercalate "_" ((extractedTaxTypes ledger).insertionSort strLe)
  if s = "" then "Remittance" else s

/-- Base of the standard-template filename. -/
def standardFilenameBase (ledger : List ScannerResult) : String :=
  sanitizeCompany (dominantCompanyOf ledger) ++ "_" ++ taxTypesStrOf ledger ++ "_Schedule"

/-- The standard-template filename. -/
def standardFilename (ledger : List ScannerResult) : String :=
  standardFilenameBase ledger ++ ".xlsx"

/-- The standard-template artifact: one sheet per year key, plus the
synthesized filename. -/
def standardArtifact (ledger : List ScannerResult) : ExportArtifact :=
  ⟨standardFilename ledger, ⟨(yearKeysOf ledger).map (standardSheet ledger)⟩⟩

/-- The whole `downloadScannerExcel` handler.  The first component of the
result is the value of the `scannerResults` state after the call (the
handler never reassigns or mutates it: the upload branch sorts a copy, the
standard branch sorts freshly built bucket arrays); the second is the
written artifact, `none` when the spreadsheet library is unavailable. -/
def downloadScannerExcel (xlsxAvailable : Bool) (templateType : TemplateType)
    (scannerResults : List ScannerResult) : List ScannerResult × Option ExportArtifact :=
  if !xlsxAvailable then (scannerResults, none)
  else
    match templateType with
    | .upload =>
      (scannerResults, some ⟨"Lagos_State_Upload_Schedule.xlsx", ⟨[uploadSheet scannerResults]⟩⟩)
    | .standard =>
      (scannerResults, some (standardArtifact scannerResults))

/-! ### Concrete examples used by the claim theorems -/

/-- A receipt whose trimmed receipt number ends in a dash. -/
def exC1r1 : ScannerResult := ⟨"Alpha Ltd", "2024-02-01", "", "Jan-24", "R-", "PAYE", 5⟩

/-- A receipt with a negative amount and a different receipt number, whose
dedup key collides with the one of `exC1r1`. -/
def exC1r2 : ScannerResult := ⟨"Beta Ltd", "2024-02-02", "", "Jan-24", "R", "VAT", -5⟩

/-- Document carrying `exC1r1`. -/
def exC1doc1 : InputDocument := ⟨"a.png", 10, "image/png", some exC1r1⟩

/-- Document carrying `exC1r2`. -/
def exC1doc2 : InputDocument := ⟨"b.png", 10, "image/png", some exC1r2⟩

/-- An extraction dated March 30 with no period: the preceding month,
February, is shorter than 30 days. -/
def exC3raw : RawScan := ⟨"Gamma Ltd", "2024-03-30", "", "T1", "PAYE", 100⟩

/-- A January extraction with no period (year-rollover example). -/
def exC3rawJan : RawScan := ⟨"Gamma Ltd", "2024-01-15", "", "T2", "PAYE", 100⟩

/-- A PAYE row with the lowercase period `jan-25`. -/
def exC4row : ScannerResult := ⟨"Delta Ltd", "2025-02-03", "", "jan-25", "N9", "PAYE", 50⟩

/-- First of the two `Acme Corp!` rows of the filename example. -/
def exC6a1 : ScannerResult := ⟨"Acme Corp!", "2025-01-10", "", "Jan-25", "N1", "PAYE", 100⟩

/-- Second `Acme Corp!` row. -/
def exC6a2 : ScannerResult := ⟨"Acme Corp!", "2025-02-10", "", "Feb-25", "N2", "VAT", 200⟩

/-- The single `Beta` row of the filename example. -/
def exC6a3 : ScannerResult := ⟨"Beta", "2025-03-10", "", "Mar-25", "N3", "PAYE", 300⟩

/-- First row of the title tie example (company `A`). -/
def exC7r1 : ScannerResult := ⟨"A", "2025-01-10", "", "Jan-25", "N1", "PAYE", 1⟩

/-- Second row of the title tie example (company `B`). -/
def exC7r2 : ScannerResult := ⟨"B", "2025-01-11", "", "Jan-25", "N2", "PAYE", 2⟩

/-- An arbitrary row for the header-row check. -/
def exC8row : ScannerResult := ⟨"Eps Ltd", "2024-05-01", "", "Apr-24", "N5", "VAT", 10⟩

/-! ### Helper lemmas: the decimal renderer and the dedup key -/

theorem digitChar_ne_dash (d : Nat) : digitChar d ≠ '-' := by
  unfold digitChar
  split_ifs <;> decide

theorem charVal_digitChar {d : Nat} (h : d < 10) : charVal (digitChar d) = d := by
  interval_cases d <;> rfl

theorem dash_not_mem_natDigitsAux : ∀ (fuel n : Nat), '-' ∉ natDigitsAux fuel n := by
  intro fuel
  induction fuel with
  | zero => intro n; simp [natDigitsAux]
  | succ f ih =>
    intro n
    match n with
    | 0 => simp [natDigitsAux]
    | k + 1 =>
      simp only [natDigitsAux, List.mem_append, List.mem_singleton]
      rintro (h | h)
      · exact ih _ h
      · exact digitChar_ne_dash _ h.symm

theorem decodeDigits_append_singleton (xs : List Char) (c : Char) :
    decodeDigits (xs ++ [c]) = decodeDigits xs * 10 + charVal c := by
  simp [decodeDigits, List.foldl_append]

theorem decodeDigits_natDigitsAux : ∀ (fuel n : Nat), n ≤ fuel →
    decodeDigits (natDigitsAux fuel n) = n := by
  intro fuel
  induction fuel with
  | zero =>
    intro n hn
    have hz : n = 0 := Nat.le_zero.mp hn
    subst hz
    rfl
  | succ f ih =>
    intro n hn
    match n with
    | 0 => simp [natDigitsAux, decodeDigits]
    | k + 1 =>
      have hdiv : (k + 1) / 10 ≤ f := by
        have := Nat.div_lt_self (Nat.succ_pos k) (by norm_num : 1 < 10)
        omega
      simp only [natDigitsAux, decodeDigits_append_singleton, ih _ hdiv,
        charVal_digitChar (Nat.mod_lt _ (by norm_num : 0 < 10))]
      omega

theorem decodeDigits_natRepr (n : Nat) : decodeDigits (natRepr n).data = n := by
  unfold natRepr
  split_ifs with h
  · subst h; rfl
  · exact decodeDigits_natDigitsAux n n (Nat.le_refl n)

theorem natRepr_inj {a b : Nat} (h : natRepr a = natRepr b) : a = b := by
  have := congrArg (fun s => decodeDigits (String.data s)) h
  simpa [decodeDigits_natRepr] using this

theorem dash_not_mem_natRepr (n : Nat) : '-' ∉ (natRepr n).data := by
  unfold natRepr
  split_ifs with h
  · decide
  · exact dash_not_mem_natDigitsAux n n

/-- Splitting at a separator character that the two suffixes avoid is
unambiguous. -/
theorem append_dash_inj : ∀ (x₁ x₂ y₁ y₂ : List Char), '-' ∉ y₁ → '-' ∉ y₂ →
    x₁ ++ '-' :: y₁ = x₂ ++ '-' :: y₂ → x₁ = x₂ ∧ y₁ = y₂ := by
  intro x₁
  induction x₁ with
  | nil =>
    intro x₂ y₁ y₂ h₁ h₂ heq
    match x₂ with
    | [] => simpa using heq
    | c :: x₂ =>
      exfalso
      simp only [List.nil_append, List.cons_append, List.cons.injEq] at heq
      exact h₁ (heq.2 ▸ List.mem_append_right x₂ (List.mem_cons_self '-' y₂))
  | cons c x₁ ih =>
    intro x₂ y₁ y₂ h₁ h₂ heq
    match x₂ with
    | [] =>
      exfalso
      simp only [List.cons_append, List.nil_append, List.cons.injEq] at heq
      exact h₂ (heq.2 ▸ List.mem_append_right x₁ (List.mem_cons_self '-' y₁))
    | c₂ :: x₂ =>
      simp only [List.cons_append, List.cons.injEq] at heq
      obtain ⟨h₃, h₄⟩ := ih x₂ y₁ y₂ h₁ h₂ heq.2
      exact ⟨by rw [heq.1, h₃], h₄⟩

/-- On non-negative amounts the dedup key determines the trimmed receipt
number and the amount. -/
theorem uniqueKeyOf_inj {r₁ r₂ : ScannerResult}
    (h₁ : 0 ≤ r₁.amount) (h₂ : 0 ≤ r₂.amount)
    (h : uniqueKeyOf r₁ = uniqueKeyOf r₂) :
    jsTrim r₁.receiptNumber = jsTrim r₂.receiptNumber ∧ r₁.amount = r₂.amount := by
  have hd := congrArg String.data h
  simp only [uniqueKeyOf, intRepr, if_neg (not_lt.mpr h₁), if_neg (not_lt.mpr h₂),
    String.data_append] at hd
  have hd' : (jsTrim r₁.receiptNumber).data ++ '-' :: (natRepr r₁.amount.natAbs).data =
      (jsTrim r₂.receiptNumber).data ++ '-' :: (natRepr r₂.amount.natAbs).data := by
    simpa using hd
  obtain ⟨ht, hr⟩ := append_dash_inj _ _ _ _
    (dash_not_mem_natRepr _) (dash_not_mem_natRepr _) hd'
  refine ⟨String.ext ht, ?_⟩
  have habs : r₁.amount.natAbs = r₂.amount.natAbs := natRepr_inj (String.ext hr)
  omega

/-! ### Helper lemmas: the stable sort -/

instance : IsTotal ScannerResult dateLe := ⟨fun a b => Nat.le_total (dateKey a.paymentDate) (dateKey b.paymentDate)⟩

instance : IsTrans ScannerResult dateLe := ⟨fun _ _ _ => Nat.le_trans⟩

theorem sortLedger_pairwise (l : List ScannerResult) :
    (sortLedger l).Pairwise dateLe :=
  List.sorted_insertionSort dateLe l

theorem sortLedger_perm (l : List ScannerResult) : List.Perm (sortLedger l) l :=
  List.perm_insertionSort dateLe l

/-- Stability of the ledger sort: the records carrying any fixed payment
date appear in the sorted ledger exactly in their original order. -/
theorem sortLedger_filter_date (l : List ScannerResult) (s : String) :
    (sortLedger l).filter (fun r => r.paymentDate == s) =
      l.filter (fun r => r.paymentDate == s) := by
  have hpair : (l.filter (fun r => r.paymentDate == s)).Pairwise dateLe := by
    apply List.pairwise_of_forall_mem_list
    intro a ha b hb
    have ha' := (List.mem_filter.mp ha).2
    have hb' := (List.mem_filter.mp hb).2
    have ha'' : a.paymentDate = s := by simpa using ha'
    have hb'' : b.paymentDate = s := by simpa using hb'
    simp [dateLe, ha'', hb'']
  have hsub : List.Sublist (l.filter (fun r => r.paymentDate == s)) (sortLedger l) :=
    List.sublist_insertionSort hpair (List.filter_sublist l)
  have hsub₂ : List.Sublist (l.filter (fun r => r.paymentDate == s))
      ((sortLedger l).filter (fun r => r.paymentDate == s)) := by
    have := hsub.filter (fun r => r.paymentDate == s)
    simpa [List.filter_filter] using this
  have hperm : List.Perm ((sortLedger l).filter (fun r => r.paymentDate == s))
      (l.filter (fun r => r.paymentDate == s)) :=
    (sortLedger_perm l).filter _
  exact (hsub₂.eq_of_length hperm.length_eq.symm).symm

/-! ### Helper lemmas: counting maps and the dominant-entity reduce -/

theorem lookupCount_bump_self : ∀ (acc : List (String × Nat)) (n : String),
    lookupCount (bump acc n) n = some ((lookupCount acc n).getD 0 + 1) := by
  intro acc n
  induction acc with
  | nil => simp [bump, lookupCount]
  | cons p rest ih =>
    obtain ⟨k, c⟩ := p
    by_cases hk : k = n
    · subst hk
      simp [bump, lookupCount]
    · simp [bump, lookupCount, hk, ih]

theorem lookupCount_bump_ne : ∀ (acc : List (String × Nat)) (n m : String), m ≠ n →
    lookupCount (bump acc n) m = lookupCount acc m := by
  intro acc n m hmn
  induction acc with
  | nil => simp [bump, lookupCount, Ne.symm hmn]
  | cons p rest ih =>
    obtain ⟨k, c⟩ := p
    by_cases hk : k = n
    · subst hk
      simp [bump, lookupCount, Ne.symm hmn]
    · by_cases hkm : k = m
      · subst hkm
        simp [bump, lookupCount, hk]
      · simp [bump, lookupCount, hk, hkm, ih]

theorem lookupCount_foldl_bump : ∀ (names : List String) (acc : List (String × Nat)) (n : String),
    lookupCount (names.foldl bump acc) n =
      if n ∈ names then some ((lookupCount acc n).getD 0 + names.count n)
      else lookupCount acc n := by
  intro names
  induction names with
  | nil => intro acc n; simp
  | cons m rest ih =>
    intro acc n
    rw [List.foldl_cons, ih]
    by_cases hn : n = m
    · subst hn
      have hmem : n ∈ n :: rest := List.mem_cons_self n rest
      rw [if_pos hmem, List.count_cons_self, lookupCount_bump_self]
      by_cases hr : n ∈ rest
      · rw [if_pos hr]
        simp only [Option.getD_some]
        congr 1
        omega
      · rw [if_neg hr, List.count_eq_zero.mpr hr]
    · have hne : lookupCount (bump acc m) n = lookupCount acc n :=
        lookupCount_bump_ne acc m n hn
      have hmem : (n ∈ m :: rest) ↔ (n ∈ rest) := by simp [List.mem_cons, hn]
      rw [hne]
      by_cases hr : n ∈ rest
      · rw [if_pos hr, if_pos (hmem.mpr hr), List.count_cons_of_ne hn]
      · rw [if_neg hr, if_neg (fun h => hr (hmem.mp h))]

theorem lookupCount_isSome_iff : ∀ (acc : List (String × Nat)) (n : String),
    (lookupCount acc n).isSome = true ↔ n ∈ acc.map Prod.fst := by
  intro acc n
  induction acc with
  | nil => simp [lookupCount]
  | cons p rest ih =>
    obtain ⟨k, c⟩ := p
    by_cases hk : k = n
    · subst hk
      simp [lookupCount]
    · simp [lookupCount, hk, ih, Ne.symm hk]

/-- Behaviour of the seed-less maximum-frequency reduce: the result is the
seed when the seed strictly beats everything, and otherwise it is the
rightmost element of the list attaining the maximum. -/
theorem foldl_pickMax_spec (f : String → Nat) :
    ∀ (l : List String) (a : String),
      (l.foldl (pickMax f) a = a ∧ ∀ b ∈ l, f b < f a) ∨
      (∃ l₁ l₂, l = l₁ ++ l.foldl (pickMax f) a :: l₂ ∧
        f a ≤ f (l.foldl (pickMax f) a) ∧
        (∀ b ∈ l₁, f b ≤ f (l.foldl (pickMax f) a)) ∧
        (∀ b ∈ l₂, f b < f (l.foldl (pickMax f) a))) := by
  intro l
  induction l with
  | nil =>
    intro a
    left
    exact ⟨rfl, by simp⟩
  | cons b rest ih =>
    intro a
    by_cases hab : f b < f a
    · have hstep : pickMax f a b = a := by simp [pickMax, hab]
      simp only [List.foldl_cons, hstep]
      rcases ih a with ⟨h1, h2⟩ | ⟨l₁, l₂, heq, hle, hl₁, hl₂⟩
      · left
        refine ⟨h1, ?_⟩
        intro x hx
        rcases List.mem_cons.mp hx with rfl | hx
        · exact hab
        · exact h2 x hx
      · right
        refine ⟨b :: l₁, l₂, ?_, hle, ?_, hl₂⟩
        · rw [List.cons_append, ← heq]
        · intro x hx
          rcases List.mem_cons.mp hx with rfl | hx
          · exact le_trans (le_of_lt hab) hle
          · exact hl₁ x hx
    · have hstep : pickMax f a b = b := by simp [pickMax, hab]
      have hab' : f a ≤ f b := not_lt.mp hab
      simp only [List.foldl_cons, hstep]
      rcases ih b with ⟨h1, h2⟩ | ⟨l₁, l₂, heq, hle, hl₁, hl₂⟩
      · right
        rw [h1]
        refine ⟨[], rest, by rw [List.nil_append], hab', by simp, h2⟩
      · right
        refine ⟨b :: l₁, l₂, ?_, le_trans hab' hle, ?_, hl₂⟩
        · rw [List.cons_append, ← heq]
        · intro x hx
          rcases List.mem_cons.mp hx with rfl | hx
          · exact hle
          · exact hl₁ x hx

/-- When every element of the list has a defined count, the JS reduce step
(`undefined` comparisons are false) agrees with the total-function step. -/
theorem foldl_cmpKeep_eq_pickMax (cnt : String → Option Nat) :
    ∀ (l : List String) (a : String), (∀ b ∈ l, (cnt b).isSome = true) →
      l.foldl (cmpKeep cnt) a = l.foldl (pickMax (fun n => (cnt n).getD 0)) a := by
  intro l
  induction l with
  | nil => intro a _; rfl
  | cons b rest ih =>
    intro a hall
    have hb : (cnt b).isSome = true := hall b (List.mem_cons_self b rest)
    have hstep : cmpKeep cnt a b = pickMax (fun n => (cnt n).getD 0) a b := by
      obtain ⟨cb, hcb⟩ := Option.isSome_iff_exists.mp hb
      cases hca : cnt a with
      | none => simp [cmpKeep, pickMax, hca, hcb]
      | some ca => simp [cmpKeep, pickMax, hca, hcb]
    simp only [List.foldl_cons, hstep]
    exact ih _ (fun x hx => hall x (List.mem_cons_of_mem b hx))

theorem foldl_pickMax_le (f : String → Nat) (l : List String) (a : String) :
    f a ≤ f (l.foldl (pickMax f) a) ∧ ∀ b ∈ l, f b ≤ f (l.foldl (pickMax f) a) := by
  rcases foldl_pickMax_spec f l a with ⟨h1, h2⟩ | ⟨l₁, l₂, heq, hle, hl₁, hl₂⟩
  · rw [h1]
    exact ⟨le_refl _, fun b hb => le_of_lt (h2 b hb)⟩
  · refine ⟨hle, ?_⟩
    intro b hb
    rw [heq] at hb
    rcases List.mem_append.mp hb with hb | hb
    · exact hl₁ b hb
    · rcases List.mem_cons.mp hb with hb | hb
      · rw [hb]
      · exact le_of_lt (hl₂ b hb)

theorem foldl_pickMax_mem (f : String → Nat) (l : List String) (a : String) :
    l.foldl (pickMax f) a = a ∨ l.foldl (pickMax f) a ∈ l := by
  rcases foldl_pickMax_spec f l a with ⟨h1, _⟩ | ⟨l₁, l₂, heq, _, _, _⟩
  · exact Or.inl h1
  · right
    have hmem : l.foldl (pickMax f) a ∈ l₁ ++ l.foldl (pickMax f) a :: l₂ :=
      List.mem_append_right _ (List.mem_cons_self _ _)
    rw [← heq] at hmem
    exact hmem

theorem mem_keys_iff_mem_names (names : List String) (n : String) :
    n ∈ (names.foldl bump []).map Prod.fst ↔ n ∈ names := by
  rw [← lookupCount_isSome_iff, lookupCount_foldl_bump]
  by_cases h : n ∈ names <;> simp [h, lookupCount]

theorem lookupCount_counts {names : List String} {n : String} (h : n ∈ names) :
    lookupCount (names.foldl bump []) n = some (names.count n) := by
  rw [lookupCount_foldl_bump, if_pos h]
  simp [lookupCount]

theorem extractedTaxTypes_eq_nil {l : List ScannerResult} (h : ∀ r ∈ l, r.taxType = "") :
    extractedTaxTypes l = [] := by
  have key : ∀ (l : List ScannerResult) (acc : List String), (∀ r ∈ l, r.taxType = "") →
      l.foldl (fun acc r => if r.taxType = "" then acc
        else insertKey acc (shortCodeOf r.taxType)) acc = acc := by
    intro l
    induction l with
    | nil => intro acc _; rfl
    | cons r rest ih =>
      intro acc hall
      have hr := hall r (List.mem_cons_self r rest)
      simp only [List.foldl_cons, if_pos hr]
      exact ih acc (fun x hx => hall x (List.mem_cons_of_mem r hx))
  exact key l [] h

theorem getD_lookupCount_counts {names : List String} {x : String} (hx : x ∈ names) :
    (lookupCount (names.foldl bump []) x).getD 0 = names.count x := by
  rw [lookupCount_counts hx]
  rfl

theorem dominantCompanyOf_nil {l : List ScannerResult}
    (h : (companyFrequency l).map Prod.fst = []) :
    dominantCompanyOf l = "Unknown_Company" := by
  simp only [dominantCompanyOf, h]

theorem dominantCompanyOf_cons {l : List ScannerResult} {k : String} {rest : List String}
    (h : (companyFrequency l).map Prod.fst = k :: rest) :
    dominantCompanyOf l =
      rest.foldl (pickMax (fun x => (lookupCount (companyFrequency l) x).getD 0)) k := by
  simp only [dominantCompanyOf, h]

theorem dominant_mem {l : List ScannerResult} (hne : companyNamesOf l ≠ []) :
    dominantCompanyOf l ∈ companyNamesOf l := by
  obtain ⟨n₀, hn₀⟩ := List.exists_mem_of_ne_nil _ hne
  have hkeys₀ : n₀ ∈ (companyFrequency l).map Prod.fst :=
    (mem_keys_iff_mem_names (companyNamesOf l) n₀).mpr hn₀
  cases hkeys : (companyFrequency l).map Prod.fst with
  | nil => rw [hkeys] at hkeys₀; exact absurd hkeys₀ (List.not_mem_nil n₀)
  | cons k rest =>
    rw [dominantCompanyOf_cons hkeys]
    have hmem := foldl_pickMax_mem
      (fun x => (lookupCount (companyFrequency l) x).getD 0) rest k
    have hsub : ∀ x ∈ k :: rest, x ∈ companyNamesOf l := by
      intro x hx
      refine (mem_keys_iff_mem_names (companyNamesOf l) x).mp ?_
      show x ∈ (companyFrequency l).map Prod.fst
      rw [hkeys]
      exact hx
    rcases hmem with h | h
    · rw [h]
      exact hsub k (List.mem_cons_self k rest)
    · exact hsub _ (List.mem_cons_of_mem k h)

theorem dominant_max {l : List ScannerResult} {n : String} (hn : n ∈ companyNamesOf l) :
    (companyNamesOf l).count n ≤ (companyNamesOf l).count (dominantCompanyOf l) := by
  have hkeys₀ : n ∈ (companyFrequency l).map Prod.fst :=
    (mem_keys_iff_mem_names (companyNamesOf l) n).mpr hn
  cases hkeys : (companyFrequency l).map Prod.fst with
  | nil => rw [hkeys] at hkeys₀; exact absurd hkeys₀ (List.not_mem_nil n)
  | cons k rest =>
    have hdom := dominantCompanyOf_cons hkeys
    have hle := foldl_pickMax_le
      (fun x => (lookupCount (companyFrequency l) x).getD 0) rest k
    have hFn : (lookupCount (companyFrequency l) n).getD 0 ≤
        (lookupCount (companyFrequency l) (dominantCompanyOf l)).getD 0 := by
      rw [hdom]
      rw [hkeys] at hkeys₀
      rcases List.mem_cons.mp hkeys₀ with h | h
      · rw [h]
        exact hle.1
      · exact hle.2 n h
    have hdmem : dominantCompanyOf l ∈ companyNamesOf l :=
      dominant_mem (fun h => absurd (h ▸ hn) (List.not_mem_nil n))
    have hc₁ : (lookupCount (companyFrequency l) n).getD 0 = (companyNamesOf l).count n :=
      getD_lookupCount_counts hn
    have hc₂ : (lookupCount (companyFrequency l) (dominantCompanyOf l)).getD 0 =
        (companyNamesOf l).count (dominantCompanyOf l) :=
      getD_lookupCount_counts hdmem
    rw [hc₁, hc₂] at hFn
    exact hFn

/-- Full characterization of the sheet title of a non-empty bucket: it is a
mapped company name of the bucket, it attains the maximal count, and every
later key of the counting map has a strictly smaller count (the reduce keeps
the incumbent only on a strictly greater count, so ties go to the
last-encountered maximum). -/
theorem bucketTitle_spec {rows : List ScannerResult} (hne : rows ≠ []) :
    bucketTitle rows ∈ rows.map mappedName ∧
    (∀ n ∈ rows.map mappedName,
      (rows.map mappedName).count n ≤ (rows.map mappedName).count (bucketTitle rows)) ∧
    ∃ l₁ l₂, (companyCounts rows).map Prod.fst = l₁ ++ bucketTitle rows :: l₂ ∧
      ∀ b ∈ l₂, (rows.map mappedName).count b < (rows.map mappedName).count (bucketTitle rows) := by
  have hbridge : bucketTitle rows =
      ((companyCounts rows).map Prod.fst).foldl
        (pickMax (fun x => (lookupCount (companyCounts rows) x).getD 0)) "NASD PLC" := by
    refine Eq.trans ?_ (foldl_cmpKeep_eq_pickMax (lookupCount (companyCounts rows))
      ((companyCounts rows).map Prod.fst) "NASD PLC" ?_)
    · rfl
    · intro b hb
      exact (lookupCount_isSome_iff (companyCounts rows) b).mpr hb
  have hkeys_iff : ∀ x, x ∈ (companyCounts rows).map Prod.fst ↔ x ∈ rows.map mappedName :=
    fun x => mem_keys_iff_mem_names (rows.map mappedName) x
  have hcnt : ∀ x ∈ rows.map mappedName,
      (lookupCount (companyCounts rows) x).getD 0 = (rows.map mappedName).count x :=
    fun x hx => getD_lookupCount_counts hx
  rcases foldl_pickMax_spec (fun x => (lookupCount (companyCounts rows) x).getD 0)
      ((companyCounts rows).map Prod.fst) "NASD PLC" with ⟨h1, h2⟩ | ⟨l₁, l₂, heq, hle, hl₁, hl₂⟩
  · exfalso
    obtain ⟨r₀, hr₀⟩ := List.exists_mem_of_ne_nil rows hne
    have hb₀ : mappedName r₀ ∈ (companyCounts rows).map Prod.fst :=
      (hkeys_iff _).mpr (List.mem_map_of_mem mappedName hr₀)
    by_cases hN : "NASD PLC" ∈ (companyCounts rows).map Prod.fst
    · exact lt_irrefl _ (h2 _ hN)
    · have hnone : lookupCount (companyCounts rows) "NASD PLC" = none :=
        Option.not_isSome_iff_eq_none.mp
          (fun hs => hN ((lookupCount_isSome_iff (companyCounts rows) "NASD PLC").mp hs))
      have := h2 _ hb₀
      rw [hnone] at this
      exact Nat.not_lt_zero _ this
  · have htmem : bucketTitle rows ∈ (companyCounts rows).map Prod.fst := by
      rw [hbridge]
      have hmem : ((companyCounts rows).map Prod.fst).foldl
          (pickMax (fun x => (lookupCount (companyCounts rows) x).getD 0)) "NASD PLC" ∈
          l₁ ++ ((companyCounts rows).map Prod.fst).foldl
            (pickMax (fun x => (lookupCount (companyCounts rows) x).getD 0)) "NASD PLC" :: l₂ :=
        List.mem_append_right _ (List.mem_cons_self _ _)
      rw [← heq] at hmem
      exact hmem
    have htname : bucketTitle rows ∈ rows.map mappedName := (hkeys_iff _).mp htmem
    refine ⟨htname, ?_, ?_⟩
    · intro n hn
      have hnk : n ∈ (companyCounts rows).map Prod.fst := (hkeys_iff n).mpr hn
      have hmax := (foldl_pickMax_le (fun x => (lookupCount (companyCounts rows) x).getD 0)
        ((companyCounts rows).map Prod.fst) "NASD PLC").2 n hnk
      rw [← hbridge] at hmax
      rw [← hcnt n hn, ← hcnt _ htname]
      exact hmax
    · refine ⟨l₁, l₂, ?_, ?_⟩
      · rw [hbridge]
        exact heq
      · intro b hb
        have hbk : b ∈ (companyCounts rows).map Prod.fst := by
          rw [heq]
          exact List.mem_append_right _ (List.mem_cons_of_mem _ hb)
        have hbn : b ∈ rows.map mappedName := (hkeys_iff b).mp hbk
        have := hl₂ b hb
        rw [← hbridge] at this
        rw [← hcnt b hbn, ← hcnt _ htname]
        exact this

/-! ### Helper lemmas: the loop body on an admissible document -/

theorem processOne_results_dup (st : ScanState) (file : InputDocument) (r : ScannerResult)
    (hsize : file.size ≤ maxFileSize) (hmime : acceptedMimes.contains file.mime = true)
    (hext : file.extraction = some r) (hc : r.companyName ≠ "")
    (hk : uniqueKeyOf r ∈ st.uniqueKeys) :
    (processOne st file).results = st.results := by
  unfold processOne
  rw [if_neg (show ¬ maxFileSize < file.size from by omega)]
  rw [if_neg (show ¬ ((!acceptedMimes.contains file.mime) = true) from by rw [hmime]; decide)]
  rw [hext]
  simp [hc, hk]

theorem processOne_results_new (st : ScanState) (file : InputDocument) (r : ScannerResult)
    (hsize : file.size ≤ maxFileSize) (hmime : acceptedMimes.contains file.mime = true)
    (hext : file.extraction = some r) (hc : r.companyName ≠ "")
    (hk : uniqueKeyOf r ∉ st.uniqueKeys) :
    (processOne st file).results = st.results ++ [r] := by
  unfold processOne
  rw [if_neg (show ¬ maxFileSize < file.size from by omega)]
  rw [if_neg (show ¬ ((!acceptedMimes.contains file.mime) = true) from by rw [hmime]; decide)]
  rw [hext]
  simp [hc, hk]

/-! ### Helper lemmas: the processing loop emits one message per document -/

theorem processOne_messages (st : ScanState) (file : InputDocument) :
    ∃ m, (processOne st file).messages = st.messages ++ [m] := by
  unfold processOne
  split_ifs with h₁ h₂
  · exact ⟨_, rfl⟩
  · exact ⟨_, rfl⟩
  · cases hfe : file.extraction with
    | none => exact ⟨_, rfl⟩
    | some result =>
      by_cases hc : result.companyName ≠ ""
      · by_cases hk : uniqueKeyOf result ∈ st.uniqueKeys
        · exact ⟨⟨"Duplicate Receipt skipped: " ++ result.receiptNumber ++ " in " ++ file.name,
            .warning⟩, by simp [hc, hk]⟩
        · exact ⟨⟨"Successfully processed: " ++ file.name, .success⟩, by simp [hc, hk]⟩
      · exact ⟨⟨"Failed to process file: " ++ file.name ++ ". AI did not return valid data.",
          .error⟩, by simp [hc]⟩

theorem foldl_processOne_messages : ∀ (files : List InputDocument) (st : ScanState),
    ∃ tail, (files.foldl processOne st).messages = st.messages ++ tail ∧
      tail.length = files.length := by
  intro files
  induction files with
  | nil => intro st; exact ⟨[], by simp, rfl⟩
  | cons f rest ih =>
    intro st
    obtain ⟨m, hm⟩ := processOne_messages st f
    obtain ⟨tail, htail, hlen⟩ := ih (processOne st f)
    refine ⟨m :: tail, ?_, by simp [hlen]⟩
    simp [htail, hm]

/-! ### Claim C1 -/

/-- C1, counterexample: two extractions that differ both in trimmed receipt
number (`R-` vs `R`) and in amount (`5` vs `-5`) produce the same dedup key
`R--5`, so the second is rejected and only one record is admitted — refuting
the claim that any difference in receipt number or amount admits both. -/
theorem claim_C1_counterexample :
    (processReceipts [exC1doc1, exC1doc2]).1.length = 1 ∧
    jsTrim exC1r1.receiptNumber ≠ jsTrim exC1r2.receiptNumber ∧
    exC1r1.amount ≠ exC1r2.amount := by
  refine ⟨by decide, by decide, by decide⟩

/-- C1 (amended): deduplication is decided solely by the key string (trimmed
receipt number, dash, stringified amount): a processed extraction whose key
was already seen is rejected regardless of any other field, a fresh key is
admitted, and — provided amounts are non-negative, so that their decimal
form contains no dash — equal keys force equal trimmed receipt numbers and
equal amounts (with a negative amount, distinct pairs can collide, as the
counterexample shows). -/
theorem claim_C1_amended :
    (∀ (st : ScanState) (file : InputDocument) (r : ScannerResult),
        file.size ≤ maxFileSize → acceptedMimes.contains file.mime = true →
        file.extraction = some r → r.companyName ≠ "" →
        uniqueKeyOf r ∈ st.uniqueKeys →
        (processOne st file).results = st.results) ∧
    (∀ (st : ScanState) (file : InputDocument) (r : ScannerResult),
        file.size ≤ maxFileSize → acceptedMimes.contains file.mime = true →
        file.extraction = some r → r.companyName ≠ "" →
        uniqueKeyOf r ∉ st.uniqueKeys →
        (processOne st file).results = st.results ++ [r]) ∧
    (∀ r₁ r₂ : ScannerResult, 0 ≤ r₁.amount → 0 ≤ r₂.amount →
        uniqueKeyOf r₁ = uniqueKeyOf r₂ →
        jsTrim r₁.receiptNumber = jsTrim r₂.receiptNumber ∧ r₁.amount = r₂.amount) :=
  ⟨processOne_results_dup, processOne_results_new,
    fun _ _ h₁ h₂ h => uniqueKeyOf_inj h₁ h₂ h⟩

/-- C1, witness: the amended theorem applied to concrete inputs — a seen key
is rejected, a fresh key is appended, and key injectivity holds on
non-negative amounts. -/
theorem claim_C1_witness :
    (processOne ⟨["R--5"], [], []⟩ exC1doc1).results = [] ∧
    (processOne ⟨[], [], []⟩ exC1doc1).results = [exC1r1] ∧
    (jsTrim exC6a1.receiptNumber = jsTrim exC6a1.receiptNumber ∧
      exC6a1.amount = exC6a1.amount) := by
  refine ⟨?_, ?_, claim_C1_amended.2.2 exC6a1 exC6a1 (by decide) (by decide) rfl⟩
  · exact claim_C1_amended.1 ⟨["R--5"], [], []⟩ exC1doc1 exC1r1
      (by decide) (by decide) rfl (by decide) (by decide)
  · have h := claim_C1_amended.2.1 ⟨[], [], []⟩ exC1doc1 exC1r1
      (by decide) (by decide) rfl (by decide) (by decide)
    simpa using h

/-! ### Claim C2 -/

/-- C2: every finalized ledger is pairwise non-decreasing by payment date;
records carrying the same payment date appear in their original admission
order (filtering the sorted ledger to one date gives exactly the original
subsequence); and the upload exporter's independent re-sort is literally the
same ordering function as the ledger sort. -/
theorem claim_C2 :
    (∀ files : List InputDocument, ((processReceipts files).1).Pairwise dateLe) ∧
    (∀ (l : List ScannerResult) (s : String),
        (sortLedger l).filter (fun r => r.paymentDate == s) =
          l.filter (fun r => r.paymentDate == s)) ∧
    (∀ l : List ScannerResult, uploadSorted l = sortLedger l) :=
  ⟨fun _ => sortLedger_pairwise _, sortLedger_filter_date, fun _ => rfl⟩

/-! ### Claim C3 -/

/-- C3, counterexample: for the extraction dated `2024-03-30` with an absent
period, the derived period is `Mar-24`, not the claimed preceding calendar
month `Feb-24`: `setMonth` rolls the day 30 past the end of February. -/
theorem claim_C3_counterexample :
    (normalizeScanData exC3raw).paymentPeriod = "Mar-24" ∧
    (normalizeScanData exC3raw).paymentPeriod ≠ "Feb-24" := by
  exact ⟨by decide, by decide⟩

/-- C3 (amended): when the period is absent, normalization derives it from
the payment date via `setMonth(month - 1)`; whenever the day of month does
not exceed the length of the preceding month the result is exactly the
preceding calendar month (December of the previous year for January dates),
formatted as 3-letter month, dash, 2-digit year.  When the day overflows
the preceding month, the date rolls forward instead (counterexample). -/
theorem claim_C3_amended (d : RawScan) (y m day : Nat)
    (hperiod : d.paymentPeriod = "") (hdate : d.paymentDate ≠ "")
    (hparse : parseDateISO d.paymentDate = (y, m, day))
    (hm₁ : 1 ≤ m) (hm₂ : m ≤ 12)
    (hfit : day ≤ daysInMonth (if m = 1 then y - 1 else y) (if m = 1 then 12 else m - 1)) :
    (normalizeScanData d).paymentPeriod =
      monthShortName (if m = 1 then 12 else m - 1) ++ "-" ++
        twoDigitYear (if m = 1 then y - 1 else y) := by
  have hcond : d.paymentPeriod = "" ∧ d.paymentDate ≠ "" := ⟨hperiod, hdate⟩
  by_cases h1 : m = 1
  · subst h1
    have hfit' : day ≤ daysInMonth (y - 1) 12 := by simpa using hfit
    simp [normalizeScanData, hcond, inferredPeriod, hparse, prevMonthDate, hfit']
  · have hfit' : day ≤ daysInMonth y (m - 1) := by simpa [h1] using hfit
    simp [normalizeScanData, hcond, inferredPeriod, hparse, prevMonthDate, h1, hfit']

/-- C3, witness: the amended theorem at the January example — `2024-01-15`
with no period yields `Dec-23`. -/
theorem claim_C3_witness : (normalizeScanData exC3rawJan).paymentPeriod = "Dec-23" := by
  have h := claim_C3_amended exC3rawJan 2024 1 15 rfl (by decide) (by decide)
    (by decide) (by decide) (by decide)
  exact h

/-! ### Claim C4 -/

/-- C4: the upload-template row derivation — the displayed tax type is
rewritten to `PAYE` exactly when the uppercased raw type contains
`LAGOS REVENUE PAYMENT` or equals `REVENUE PAYMENT` or `REVENUE RECEIPT`;
when the period splits on the dash into exactly two parts, a PAYE-family row
shows the full uppercase month name of a recognized abbreviation while any
other row shows the year, with a 2-digit year prefixed by `20` (and longer
year parts passed through); when the period does not split into exactly two
parts, the month or year is derived from the payment date instead. -/
theorem claim_C4 :
    (∀ t : String, displayTaxTypeOf t =
        if (strContains (jsUpper t) "LAGOS REVENUE PAYMENT" || jsUpper t == "REVENUE PAYMENT"
            || jsUpper t == "REVENUE RECEIPT") then "PAYE" else t) ∧
    (∀ (row : ScannerResult) (m yy M : String),
        jsSplitDash row.paymentPeriod = [m, yy] → isPayeOf row = true →
        (monthAbbrevMap m = some M ∨
          (monthAbbrevMap m = none ∧ monthAbbrevMap (jsLower m) = some M)) →
        periodValOf row = M) ∧
    (∀ (row : ScannerResult) (m yy : String),
        jsSplitDash row.paymentPeriod = [m, yy] → isPayeOf row = false →
        yy.length = 2 → periodValOf row = "20" ++ yy) ∧
    (∀ (row : ScannerResult) (m yy : String),
        jsSplitDash row.paymentPeriod = [m, yy] → isPayeOf row = false →
        yy.length ≠ 2 → periodValOf row = yy) ∧
    (∀ row : ScannerResult, (jsSplitDash row.paymentPeriod).length ≠ 2 →
        periodValOf row =
          if isPayeOf row then jsUpper (monthLongName (parseDateISO row.paymentDate).2.1)
          else natRepr (parseDateISO row.paymentDate).1) := by
  refine ⟨fun t => rfl, ?_, ?_, ?_, ?_⟩
  · intro row m yy M hsplit hpaye habbrev
    rcases habbrev with h | ⟨h₁, h₂⟩
    · simp [periodValOf, hsplit, hpaye, h]
    · simp [periodValOf, hsplit, hpaye, h₁, h₂]
  · intro row m yy hsplit hpaye hlen
    simp [periodValOf, hsplit, hpaye, hlen]
  · intro row m yy hsplit hpaye hlen
    simp [periodValOf, hsplit, hpaye, hlen]
  · intro row hlen
    rcases hsp : jsSplitDash row.paymentPeriod with _ | ⟨a, _ | ⟨b, _ | ⟨c, rest⟩⟩⟩
    · simp [periodValOf, hsp]
    · simp [periodValOf, hsp]
    · rw [hsp] at hlen
      simp at hlen
    · simp [periodValOf, hsp]

/-- C4, witness: the claim's own example — period `jan-25` on a PAYE row
expands to `JANUARY`. -/
theorem claim_C4_witness : periodValOf exC4row = "JANUARY" :=
  claim_C4.2.1 exC4row "jan" "25" "JANUARY" (by decide) (by decide) (Or.inl (by decide))

/-! ### Claim C5 -/

/-- C5, counterexample: an export requested on an empty ledger does NOT fail
— the upload exporter still produces an artifact (a header-only sheet),
refuting the claim that no output artifact is produced in either mode. -/
theorem claim_C5_counterexample :
    ((downloadScannerExcel true TemplateType.upload []).2).isSome = true := rfl

/-- C5 (amended): the only export precondition the handler checks is the
availability of the spreadsheet capability — when it is missing the handler
returns without writing and leaves the ledger untouched, in both modes.  An
empty ledger is not rejected: the upload exporter writes a header-only
artifact with the static filename, and the standard exporter assembles an
artifact with zero sheets under the fallback filename (which the real
spreadsheet library would refuse to write). -/
theorem claim_C5_amended :
    (∀ (t : TemplateType) (l : List ScannerResult),
        downloadScannerExcel false t l = (l, none)) ∧
    downloadScannerExcel true TemplateType.upload [] =
      ([], some ⟨"Lagos_State_Upload_Schedule.xlsx",
        ⟨[⟨"Upload", [uploadHeaders.map CellValue.str]⟩]⟩⟩) ∧
    downloadScannerExcel true TemplateType.standard [] =
      ([], some ⟨"UnknownCompany_Remittance_Schedule.xlsx", ⟨[]⟩⟩) := by
  refine ⟨fun t l => rfl, by decide, by decide⟩

/-! ### Claim C6 -/

/-- C6: standard-template filename synthesis — the claim's example ledger
(`Acme Corp!` twice, `Beta` once, short-codes PAYE and VAT) yields the base
`Acme_Corp_PAYE_VAT_Schedule`; a ledger with no company names falls back to
the dominant company `Unknown_Company` and one with no tax types to the
token `Remittance`; the dominant company is one of the ledger's company
names and attains the maximal frequency; and the base is always the
sanitized dominant company, the joined short-codes and `_Schedule`. -/
theorem claim_C6 :
    standardFilenameBase [exC6a1, exC6a2, exC6a3] = "Acme_Corp_PAYE_VAT_Schedule" ∧
    (∀ l : List ScannerResult, (∀ r ∈ l, r.companyName = "") →
        dominantCompanyOf l = "Unknown_Company") ∧
    (∀ l : List ScannerResult, (∀ r ∈ l, r.taxType = "") →
        taxTypesStrOf l = "Remittance") ∧
    (∀ l : List ScannerResult, companyNamesOf l ≠ [] →
        dominantCompanyOf l ∈ companyNamesOf l) ∧
    (∀ (l : List ScannerResult) (n : String), n ∈ companyNamesOf l →
        (companyNamesOf l).count n ≤ (companyNamesOf l).count (dominantCompanyOf l)) ∧
    (∀ l : List ScannerResult, standardFilenameBase l =
        sanitizeCompany (dominantCompanyOf l) ++ "_" ++ taxTypesStrOf l ++ "_Schedule") := by
  refine ⟨by decide, ?_, ?_, fun l h => dominant_mem h, fun l n h => dominant_max h,
    fun l => rfl⟩
  · intro l h
    have hnil : companyNamesOf l = [] := by
      simp only [companyNamesOf, List.filterMap_eq_nil_iff]
      intro r hr
      simp [h r hr]
    apply dominantCompanyOf_nil
    show ((companyNamesOf l).foldl bump []).map Prod.fst = []
    rw [hnil]
    rfl
  · intro l h
    have hnil := extractedTaxTypes_eq_nil h
    simp only [taxTypesStrOf, hnil]
    rfl

/-- C6, witness: the filename components at concrete inputs — defaults on
the empty ledger and maximal frequency of the dominant company on the
example ledger. -/
theorem claim_C6_witness :
    dominantCompanyOf [] = "Unknown_Company" ∧
    taxTypesStrOf [] = "Remittance" ∧
    (companyNamesOf [exC6a1, exC6a2, exC6a3]).count "Beta" ≤
      (companyNamesOf [exC6a1, exC6a2, exC6a3]).count
        (dominantCompanyOf [exC6a1, exC6a2, exC6a3]) :=
  ⟨claim_C6.2.1 [] (by simp), claim_C6.2.2.1 [] (by simp),
    claim_C6.2.2.2.2.1 [exC6a1, exC6a2, exC6a3] "Beta" (by decide)⟩

/-! ### Claim C7 -/

/-- C7, counterexample: in a bucket with two rows for the distinct companies
`A` then `B`, each occurring once, the title is `B` — the tie is broken in
favour of the LAST-encountered company, refuting the claimed
first-encountered tie-break. -/
theorem claim_C7_counterexample :
    exC7r1.companyName = "A" ∧ exC7r2.companyName = "B" ∧
    ([exC7r1, exC7r2].map mappedName).count "A" = 1 ∧
    ([exC7r1, exC7r2].map mappedName).count "B" = 1 ∧
    bucketTitle [exC7r1, exC7r2] = "B" ∧ bucketTitle [exC7r1, exC7r2] ≠ "A" := by
  refine ⟨rfl, rfl, by decide, by decide, by decide, by decide⟩

/-- C7 (amended): the title of a year sheet is the most frequent mapped
company name of the bucket (an empty company name counts as `Unknown`), with
ties broken in favour of the LAST-encountered company among those attaining
the maximum (the reduce keeps the incumbent only on a strictly greater
count); an empty bucket defaults to `NASD PLC`. -/
theorem claim_C7_amended :
    bucketTitle [] = "NASD PLC" ∧
    (∀ rows : List ScannerResult, rows ≠ [] →
      bucketTitle rows ∈ rows.map mappedName ∧
      (∀ n ∈ rows.map mappedName,
        (rows.map mappedName).count n ≤ (rows.map mappedName).count (bucketTitle rows)) ∧
      ∃ l₁ l₂, (companyCounts rows).map Prod.fst = l₁ ++ bucketTitle rows :: l₂ ∧
        ∀ b ∈ l₂,
          (rows.map mappedName).count b < (rows.map mappedName).count (bucketTitle rows)) :=
  ⟨rfl, fun _ hne => bucketTitle_spec hne⟩

/-- C7, witness: the amended theorem at the two-row example bucket — the
title is one of the bucket's company names. -/
theorem claim_C7_witness :
    bucketTitle [exC7r1, exC7r2] ∈ [exC7r1, exC7r2].map mappedName :=
  (claim_C7_amended.2 [exC7r1, exC7r2] (by decide)).1

/-! ### Claim C8 -/

/-- C8, counterexample: the header row of a standard-template sheet is not
the claimed quintuple ending in `AMOUNT` — the last header cell reads
`AMOUNT [N]`. -/
theorem claim_C8_counterexample :
    (standardSheetRows "2024" [exC8row]).get? 3 ≠
      some [CellValue.str "PAYMENT DATE", CellValue.str "PERIOD",
        CellValue.str "RECEIPT NUMBER", CellValue.str "TAX TYPE",
        CellValue.str "AMOUNT"] := by
  decide

/-- C8 (amended): row 4 (index 3) of every standard-template year sheet
contains exactly the headers PAYMENT DATE, PERIOD, RECEIPT NUMBER, TAX TYPE,
AMOUNT [N], in that order. -/
theorem claim_C8_amended : ∀ (year : String) (rows : List ScannerResult),
    (standardSheetRows year rows).get? 3 =
      some [CellValue.str "PAYMENT DATE", CellValue.str "PERIOD",
        CellValue.str "RECEIPT NUMBER", CellValue.str "TAX TYPE",
        CellValue.str "AMOUNT [N]"] :=
  fun _ _ => rfl

/-! ### Claim C9 -/

/-- C9: the batch loop emits exactly one diagnostic message per input
document — the message list has exactly the length of the document list, and
the messages of any prefix of the batch are exactly the first messages of
the whole batch, in input order. -/
theorem claim_C9 :
    (∀ files : List InputDocument, (processReceipts files).2.length = files.length) ∧
    (∀ pre post : List InputDocument,
        ((processReceipts (pre ++ post)).2).take pre.length = (processReceipts pre).2) := by
  constructor
  · intro files
    obtain ⟨tail, htail, hlen⟩ := foldl_processOne_messages files ⟨[], [], []⟩
    simp only [processReceipts]
    rw [htail] at *
    simpa using hlen
  · intro pre post
    obtain ⟨t₁, ht₁, hl₁⟩ := foldl_processOne_messages pre ⟨[], [], []⟩
    obtain ⟨t₂, ht₂, hl₂⟩ := foldl_processOne_messages post (pre.foldl processOne ⟨[], [], []⟩)
    simp only [processReceipts, List.foldl_append, ht₂, ht₁, List.nil_append]
    rw [← hl₁, List.take_left]

/-! ### Claim C10 -/

/-- C10: exports are read-only over the ledger — in both modes and whether
or not the spreadsheet capability is available, the `scannerResults` state
after `downloadScannerExcel` is exactly the input ledger; the upload
exporter sorts a copy (a permutation of the ledger) and the standard
exporter sorts only freshly built per-year buckets (permutations of the
bucket contents). -/
theorem claim_C10 :
    (∀ (avail : Bool) (t : TemplateType) (l : List ScannerResult),
        (downloadScannerExcel avail t l).1 = l) ∧
    (∀ l : List ScannerResult, List.Perm (uploadSorted l) l) ∧
    (∀ (l : List ScannerResult) (y : String),
        List.Perm ((bucketOf l y).insertionSort dateLe) (bucketOf l y)) := by
  refine ⟨?_, fun l => List.perm_insertionSort _ _, fun l y => List.perm_insertionSort _ _⟩
  intro avail t l
  cases avail <;> cases t <;> rfl

end Remit
